import Mathlib

/-!
Verification of the value-object / error-taxonomy core of the
`personal_rest_api_server` repository, shallowly embedded in Lean 4.

The embedding translates the Rust source:
  * `src/crates/v1/src/error.rs`           (AppError, status codes, sqlx conversion, into_response)
  * `src/crates/v1/src/domain/value_obj/normalized_string.rs`
  * `src/crates/v1/src/domain/value_obj/birth_date.rs`
  * `src/crates/v1/src/domain/value_obj/user_id.rs`
Strings are modelled as Lean `String` / `List Char` (Rust strings are sequences
of Unicode scalar values).  External library behaviour (the `unicode-normalization`
NFKC pass, the `unicode-segmentation` grapheme counter, chrono's date parsing and
calendar arithmetic, the `http` crate's canonical reason phrases) is either taken
as an explicit function parameter or modelled from its documented semantics, as
noted on each definition.  Environmental inputs (the current date, the current
wall-clock timestamp) are passed as explicit arguments.
-/

set_option maxRecDepth 8000

namespace RestApi

/-- The application-wide error type from `error.rs`: nine kinds, each carrying an
optional human-readable detail string. -/
inductive AppError where
  | BadRequest (detail : Option String)
  | Unauthorized (detail : Option String)
  | Forbidden (detail : Option String)
  | NotFound (detail : Option String)
  | RequestTimeout (detail : Option String)
  | Conflict (detail : Option String)
  | ImATeapot (detail : Option String)
  | UnprocessableContent (detail : Option String)
  | InternalServerError (detail : Option String)
  deriving DecidableEq, Repr

/-- HTTP status codes are modelled by their `u16` value (`StatusCode::as_u16`). -/
def AppError.status_code : AppError → Nat
  | .BadRequest _ => 400
  | .Unauthorized _ => 401
  | .Forbidden _ => 403
  | .NotFound _ => 404
  | .RequestTimeout _ => 408
  | .Conflict _ => 409
  | .ImATeapot _ => 418
  | .UnprocessableContent _ => 422
  | .InternalServerError _ => 500

/-- The `detail()` accessor from `error.rs`: every variant exposes its optional
detail string. -/
def AppError.detail : AppError → Option String
  | .BadRequest d => d
  | .Unauthorized d => d
  | .Forbidden d => d
  | .NotFound d => d
  | .RequestTimeout d => d
  | .Conflict d => d
  | .ImATeapot d => d
  | .UnprocessableContent d => d
  | .InternalServerError d => d

/-- Modelled from the spec: the `http` crate's `StatusCode::is_server_error`,
true exactly for statuses 500..=599. -/
def is_server_error (status : Nat) : Bool :=
  decide (500 ≤ status) && decide (status ≤ 599)

/-- Modelled from the spec: the `http` crate's `StatusCode::canonical_reason`,
restricted to the nine status codes this application produces. -/
def canonical_reason (status : Nat) : Option String :=
  match status with
  | 400 => some "Bad Request"
  | 401 => some "Unauthorized"
  | 403 => some "Forbidden"
  | 404 => some "Not Found"
  | 408 => some "Request Timeout"
  | 409 => some "Conflict"
  | 418 => some "I\x27m a teapot"
  | 422 => some "Unprocessable Entity"
  | 500 => some "Internal Server Error"
  | _ => none

/-- The error-response body from `presentation/dto/common_dto.rs`.  The field
`inst` models the source field named `instance` (a Lean keyword). -/
structure ApiError where
  status : Nat
  message : String
  detail : Option String
  inst : Option String
  timestamp : Int
  deriving DecidableEq, Repr

/-- The `IntoResponse` implementation for `AppError` in `error.rs`, returning the
transport status together with the JSON body.  `now` models `Utc::now().timestamp()`;
the tracing side effects (error!/warn! logging) have no observable effect on the
returned response and are not modelled. -/
def AppError.into_response (e : AppError) (now : Int) : Nat × ApiError :=
  let status := e.status_code
  let body : ApiError :=
    if is_server_error status then
      { status := status
        message := (canonical_reason status).getD "Internal Server Error"
        detail := none
        inst := none
        timestamp := now }
    else
      { status := status
        message := (canonical_reason status).getD "Error"
        detail := e.detail
        inst := none
        timestamp := now }
  (status, body)

namespace sqlx_error_code

/-- PostgreSQL SQLSTATE constant from `error.rs`. -/
def UNIQUE_VIOLATION : String := "23505"

/-- PostgreSQL SQLSTATE constant from `error.rs`. -/
def FK_VIOLATION : String := "23503"

/-- PostgreSQL SQLSTATE constant from `error.rs`. -/
def NOT_NULL_VIOLATION : String := "23502"

/-- PostgreSQL SQLSTATE constant from `error.rs`. -/
def CHECK_VIOLATION : String := "23514"

end sqlx_error_code

/-- Modelled from the spec: the shape of `sqlx::Error` that the conversion in
`error.rs` distinguishes — a row-not-found case, a pool-timeout case, a database
(constraint) error carrying an optional engine code and a message, and every
other variant collapsed to its `Display` string. -/
inductive SqlxError where
  | RowNotFound
  | PoolTimedOut
  | Database (code : Option String) (message : String)
  | Other (display : String)
  deriving DecidableEq, Repr

/-- Modelled from the spec: `sqlx::Error`'s `Display` implementation (the
`e.to_string()` the conversion computes).  Only the `Other` case's string is
ever inspected by the conversion. -/
def SqlxError.to_string : SqlxError → String
  | .RowNotFound =>
      "no rows returned by a query that expected to return at least one row"
  | .PoolTimedOut => "pool timed out while waiting for an open connection"
  | .Database _ message => "error returned from database: " ++ message
  | .Other display => display

/-- Substring containment on character lists, modelling Rust's
`str::contains` with a string pattern (case-sensitive). -/
def strContains : List Char → List Char → Bool
  | [], needle => needle.isEmpty
  | h :: t, needle => needle.isPrefixOf (h :: t) || strContains t needle

/-- The `From<SqlxError> for AppError` conversion in `error.rs`.  The string
match on the engine code is sequential equality against the SQLSTATE constants;
the `"timeout"` substring test applies only to errors not matched by an earlier
arm. -/
def AppError.from_sqlx (e : SqlxError) : AppError :=
  let e_str := e.to_string
  match e with
  | .RowNotFound => .NotFound (some "Resource not found")
  | .PoolTimedOut => .RequestTimeout (some "Database timeout")
  | .Database code message =>
    let c := code.getD ""
    if c = sqlx_error_code.UNIQUE_VIOLATION then
      .Conflict (some "Duplicate key")
    else if c = sqlx_error_code.FK_VIOLATION then
      .Conflict (some "Foreign-key violation")
    else if c = sqlx_error_code.NOT_NULL_VIOLATION then
      .BadRequest (some "Null value in column")
    else if c = sqlx_error_code.CHECK_VIOLATION then
      .UnprocessableContent (some "Check violation")
    else
      .InternalServerError (some ("Database error (" ++ c ++ "): " ++ message))
  | .Other display =>
    if strContains e_str.data "timeout".data then
      .RequestTimeout (some "Database timeout")
    else
      .InternalServerError (some ("DB error: " ++ display))

/-- The `UserId` value object from `user_id.rs`, wrapping an `i64` (modelled as
`Int`; the constructor only compares, so no wrapping arithmetic occurs). -/
structure UserId where
  value : Int
  deriving DecidableEq, Repr

/-- Error-message label constant from `user_id.rs`. -/
def UserId.TARGET : String := "ユーザーID(user_id)"

/-- The `UserId::new` smart constructor: rejects any non-positive value with an
`InternalServerError`. -/
def UserId.new (user_id : Int) : Except AppError UserId :=
  if user_id ≤ 0 then
    .error (.InternalServerError (some (UserId.TARGET ++ "は正の整数でなければなりません。")))
  else
    .ok ⟨user_id⟩

/-- The `UserId::as_i64` accessor. -/
def UserId.as_i64 (u : UserId) : Int := u.value

/-- C2: `status_code()` is total on the nine `AppError` kinds and maps each kind
to exactly one fixed transport status, independent of the attached detail:
BadRequest 400, Unauthorized 401, Forbidden 403, NotFound 404, RequestTimeout 408,
Conflict 409, ImATeapot 418, UnprocessableContent 422, InternalServerError 500. -/
theorem status_code_fixed_mapping :
    ∀ d : Option String,
      (AppError.BadRequest d).status_code = 400 ∧
      (AppError.Unauthorized d).status_code = 401 ∧
      (AppError.Forbidden d).status_code = 403 ∧
      (AppError.NotFound d).status_code = 404 ∧
      (AppError.RequestTimeout d).status_code = 408 ∧
      (AppError.Conflict d).status_code = 409 ∧
      (AppError.ImATeapot d).status_code = 418 ∧
      (AppError.UnprocessableContent d).status_code = 422 ∧
      (AppError.InternalServerError d).status_code = 500 := by
  intro d
  exact ⟨rfl, rfl, rfl, rfl, rfl, rfl, rfl, rfl, rfl⟩

/-- C1: among the nine kinds only `InternalServerError` has a server-error (5xx)
status; for a server-error status the response body has no `detail` and carries
the fixed canonical message, regardless of the attached detail; for a client-error
status the body carries the canonical reason phrase as `message` and the attached
detail verbatim; and two `InternalServerError` values with different details
produce identical responses for the same timestamp. -/
theorem into_response_redaction :
    (∀ e : AppError,
        is_server_error e.status_code = true ↔ ∃ d, e = .InternalServerError d) ∧
    (∀ (e : AppError) (now : Int), is_server_error e.status_code = true →
        (e.into_response now).2.detail = none ∧
        (e.into_response now).2.message = "Internal Server Error") ∧
    (∀ (e : AppError) (now : Int), is_server_error e.status_code = false →
        (e.into_response now).2.detail = e.detail ∧
        canonical_reason e.status_code = some (e.into_response now).2.message) ∧
    (∀ (d₁ d₂ : Option String) (now : Int),
        (AppError.InternalServerError d₁).into_response now
          = (AppError.InternalServerError d₂).into_response now) := by
  refine ⟨?_, ?_, ?_, ?_⟩
  · intro e
    cases e <;> simp [AppError.status_code, is_server_error]
  · intro e now h
    cases e <;> simp_all [AppError.status_code, is_server_error, AppError.into_response,
      canonical_reason]
  · intro e now h
    cases e <;> simp_all [AppError.status_code, is_server_error, AppError.into_response,
      canonical_reason, AppError.detail]
  · intro d₁ d₂ now
    rfl

/-- Witness for C1: concrete instances — an `InternalServerError` with a populated
detail yields a body with absent detail and the generic message, a `NotFound`
with a detail carries it verbatim with the canonical reason, and two
`InternalServerError` values with different details yield the same response. -/
theorem into_response_redaction_witness :
    ((AppError.InternalServerError (some "db password is hunter2")).into_response 42).2.detail
        = none ∧
    ((AppError.InternalServerError (some "db password is hunter2")).into_response 42).2.message
        = "Internal Server Error" ∧
    ((AppError.NotFound (some "user 7 missing")).into_response 42).2.detail
        = some "user 7 missing" ∧
    canonical_reason (AppError.NotFound (some "user 7 missing")).status_code
        = some ((AppError.NotFound (some "user 7 missing")).into_response 42).2.message ∧
    (AppError.InternalServerError (some "secret A")).into_response 42
        = (AppError.InternalServerError (some "secret B")).into_response 42 := by
  refine ⟨?_, ?_, ?_, ?_, ?_⟩
  · exact (into_response_redaction.2.1 (.InternalServerError (some "db password is hunter2"))
      42 (by decide)).1
  · exact (into_response_redaction.2.1 (.InternalServerError (some "db password is hunter2"))
      42 (by decide)).2
  · exact ((into_response_redaction.2.2.1 (.NotFound (some "user 7 missing"))
      42 (by decide)).1).trans rfl
  · exact (into_response_redaction.2.2.1 (.NotFound (some "user 7 missing")) 42 (by decide)).2
  · exact into_response_redaction.2.2.2 (some "secret A") (some "secret B") 42

/-- C3: the `From<SqlxError> for AppError` conversion classifies a row-not-found
error as `NotFound`, a pool timeout as `RequestTimeout`, a database error by its
engine code (23505 and 23503 to `Conflict`, 23502 to `BadRequest`, 23514 to
`UnprocessableContent`, any other or absent code to `InternalServerError`
carrying the code and message), any remaining error whose display string
contains the case-sensitive substring "timeout" as `RequestTimeout`, and
everything else as `InternalServerError` carrying the stringified cause. -/
theorem from_sqlx_classification :
    (AppError.from_sqlx .RowNotFound = .NotFound (some "Resource not found")) ∧
    (AppError.from_sqlx .PoolTimedOut = .RequestTimeout (some "Database timeout")) ∧
    (∀ msg, AppError.from_sqlx (.Database (some "23505") msg)
        = .Conflict (some "Duplicate key")) ∧
    (∀ msg, AppError.from_sqlx (.Database (some "23503") msg)
        = .Conflict (some "Foreign-key violation")) ∧
    (∀ msg, AppError.from_sqlx (.Database (some "23502") msg)
        = .BadRequest (some "Null value in column")) ∧
    (∀ msg, AppError.from_sqlx (.Database (some "23514") msg)
        = .UnprocessableContent (some "Check violation")) ∧
    (∀ code msg,
        code.getD "" ≠ "23505" → code.getD "" ≠ "23503" →
        code.getD "" ≠ "23502" → code.getD "" ≠ "23514" →
        AppError.from_sqlx (.Database code msg)
          = .InternalServerError
              (some ("Database error (" ++ code.getD "" ++ "): " ++ msg))) ∧
    (∀ s, strContains s.data "timeout".data = true →
        AppError.from_sqlx (.Other s) = .RequestTimeout (some "Database timeout")) ∧
    (∀ s, strContains s.data "timeout".data = false →
        AppError.from_sqlx (.Other s)
          = .InternalServerError (some ("DB error: " ++ s))) := by
  refine ⟨rfl, rfl, fun msg => rfl, fun msg => rfl, fun msg => rfl, fun msg => rfl,
    ?_, ?_, ?_⟩
  · intro code msg h1 h2 h3 h4
    simp [AppError.from_sqlx, sqlx_error_code.UNIQUE_VIOLATION, sqlx_error_code.FK_VIOLATION,
      sqlx_error_code.NOT_NULL_VIOLATION, sqlx_error_code.CHECK_VIOLATION, h1, h2, h3, h4]
  · intro s h
    simp [AppError.from_sqlx, SqlxError.to_string, h]
  · intro s h
    simp [AppError.from_sqlx, SqlxError.to_string, h]

/-- Witness for C3: concrete classifications — an unrecognized code `99999`
degrades to `InternalServerError` with the code and message, an absent code does
the same with an empty code, a message containing "timeout" maps to
`RequestTimeout`, and one without it maps to `InternalServerError`. -/
theorem from_sqlx_classification_witness :
    AppError.from_sqlx (.Database (some "99999") "weird constraint")
        = .InternalServerError (some "Database error (99999): weird constraint") ∧
    AppError.from_sqlx (.Database none "no code at all")
        = .InternalServerError (some "Database error (): no code at all") ∧
    AppError.from_sqlx (.Other "io: connection timeout while reading")
        = .RequestTimeout (some "Database timeout") ∧
    AppError.from_sqlx (.Other "io: broken pipe")
        = .InternalServerError (some "DB error: io: broken pipe") := by
  refine ⟨?_, ?_, ?_, ?_⟩
  · exact (from_sqlx_classification.2.2.2.2.2.2.1 (some "99999") "weird constraint"
      (by decide) (by decide) (by decide) (by decide)).trans (by rfl)
  · exact (from_sqlx_classification.2.2.2.2.2.2.1 none "no code at all"
      (by decide) (by decide) (by decide) (by decide)).trans (by rfl)
  · exact from_sqlx_classification.2.2.2.2.2.2.2.1 "io: connection timeout while reading"
      (by rfl)
  · exact from_sqlx_classification.2.2.2.2.2.2.2.2 "io: broken pipe" (by rfl)

/-- C10: `UserId::new` fails with an `InternalServerError` (a server-error kind)
exactly when the value is non-positive, succeeds for every strictly positive
`i64`, and on success `as_i64` returns exactly the integer passed in. -/
theorem user_id_new_boundary :
    ∀ v : Int, -(2 ^ 63) ≤ v → v < 2 ^ 63 →
      (v ≤ 0 →
        UserId.new v = .error (.InternalServerError
          (some (UserId.TARGET ++ "は正の整数でなければなりません。"))) ∧
        is_server_error (AppError.InternalServerError
          (some (UserId.TARGET ++ "は正の整数でなければなりません。"))).status_code = true) ∧
      (0 < v →
        UserId.new v = .ok ⟨v⟩ ∧ UserId.as_i64 ⟨v⟩ = v) := by
  intro v _ _
  constructor
  · intro hv
    exact ⟨by simp [UserId.new, hv], by decide⟩
  · intro hv
    refine ⟨?_, rfl⟩
    simp [UserId.new, not_le.mpr hv]

/-- Witness for C10: `i64::MAX` and `1` succeed and round-trip through `as_i64`;
`0` and a negative value fail with the `InternalServerError`. -/
theorem user_id_new_boundary_witness :
    (UserId.new 9223372036854775807 = .ok ⟨9223372036854775807⟩ ∧
      UserId.as_i64 ⟨9223372036854775807⟩ = 9223372036854775807) ∧
    (UserId.new 1 = .ok ⟨1⟩ ∧ UserId.as_i64 ⟨1⟩ = 1) ∧
    UserId.new 0 = .error (.InternalServerError
      (some (UserId.TARGET ++ "は正の整数でなければなりません。"))) ∧
    UserId.new (-10) = .error (.InternalServerError
      (some (UserId.TARGET ++ "は正の整数でなければなりません。"))) := by
  refine ⟨?_, ?_, ?_, ?_⟩
  · exact (user_id_new_boundary 9223372036854775807 (by decide) (by decide)).2 (by decide)
  · exact (user_id_new_boundary 1 (by decide) (by decide)).2 (by decide)
  · exact ((user_id_new_boundary 0 (by decide) (by decide)).1 (by decide)).1
  · exact ((user_id_new_boundary (-10) (by decide) (by decide)).1 (by decide)).1

/-- Modelled from the spec: Rust's `char::is_whitespace` (the Unicode
`White_Space` property), the predicate `str::trim` strips — the 25 code points
with that property, including the full-width ideographic space U+3000. -/
def rustIsWhitespace (c : Char) : Bool :=
  c.toNat = 0x9 || c.toNat = 0xA || c.toNat = 0xB || c.toNat = 0xC || c.toNat = 0xD ||
  c.toNat = 0x20 || c.toNat = 0x85 || c.toNat = 0xA0 || c.toNat = 0x1680 ||
  (0x2000 ≤ c.toNat && c.toNat ≤ 0x200A) ||
  c.toNat = 0x2028 || c.toNat = 0x2029 || c.toNat = 0x202F || c.toNat = 0x205F ||
  c.toNat = 0x3000

/-- Leading-whitespace removal, half of Rust's `str::trim`. -/
def trimStart (s : List Char) : List Char :=
  s.dropWhile rustIsWhitespace

/-- Trailing-whitespace removal, the other half of Rust's `str::trim`. -/
def trimEnd (s : List Char) : List Char :=
  (s.reverse.dropWhile rustIsWhitespace).reverse

/-- Rust's `str::trim`: strip Unicode whitespace from both ends. -/
def rustTrim (s : List Char) : List Char :=
  trimEnd (trimStart s)

/-- The zero-width joiner U+200D. -/
def ZWJ : Char := Char.ofNat 0x200D

/-- Modelled from the spec: the `unicode-segmentation` grapheme-cluster counter
(`graphemes(true).count()`), restricted to the joining behaviour the spec
describes — a character neither preceding nor following a zero-width joiner
starts a new cluster, so a multi-code-point ZWJ emoji sequence counts as one.
`prev` is the previously seen character, if any. -/
def graphemeCountAux : Option Char → List Char → Nat
  | _, [] => 0
  | prev, c :: rest =>
    let startsNew : Bool :=
      match prev with
      | none => true
      | some p => !(p = ZWJ || c = ZWJ)
    (if startsNew then 1 else 0) + graphemeCountAux (some c) rest

/-- Modelled from the spec: grapheme-cluster count of a string. -/
def graphemeCount (s : List Char) : Nat :=
  graphemeCountAux none s

/-- The `NormalizedString` value object from `normalized_string.rs`, wrapping the
normalized, trimmed character sequence. -/
structure NormalizedString where
  value : List Char
  deriving DecidableEq, Repr

/-- The min-length guard inside `NormalizedString::new`: when `min_len` is set
and the grapheme count is strictly below it, fail with the "at least" message. -/
def check_min_len (target : String) (len : Nat) : Option Nat → Except AppError Unit
  | none => .ok ()
  | some min =>
    if len < min then
      .error (.UnprocessableContent
        (some (target ++ "は" ++ toString min ++ "文字以上で入力してください。")))
    else
      .ok ()

/-- The max-length guard inside `NormalizedString::new`: when `max_len` is set
and the grapheme count is strictly above it, fail with the "at most" message. -/
def check_max_len (target : String) (len : Nat) : Option Nat → Except AppError Unit
  | none => .ok ()
  | some max =>
    if max < len then
      .error (.UnprocessableContent
        (some (target ++ "は" ++ toString max ++ "文字以内で入力してください。")))
    else
      .ok ()

/-- The `NormalizedString::new` smart constructor from `normalized_string.rs`.
The external NFKC normalization pass (`unicode-normalization`'s `nfkc()`) is an
explicit function parameter; the source applies it to the whole input and then
trims, checks emptiness against `required`, and applies the min/max
grapheme-count guards in order. -/
def NormalizedString.new (nfkc : List Char → List Char) (input : List Char)
    (required : Bool) (target : String) (min_len max_len : Option Nat) :
    Except AppError (Option NormalizedString) :=
  if rustTrim (nfkc input) = [] then
    if required then
      .error (.UnprocessableContent (some (target ++ "は必須のパラメータです。")))
    else
      .ok none
  else
    match check_min_len target (graphemeCount (rustTrim (nfkc input))) min_len with
    | .error e => .error e
    | .ok _ =>
      match check_max_len target (graphemeCount (rustTrim (nfkc input))) max_len with
      | .error e => .error e
      | .ok _ => .ok (some ⟨rustTrim (nfkc input)⟩)

/-- The `as_str` accessor: the wrapped, already-normalized character sequence. -/
def NormalizedString.as_str (ns : NormalizedString) : List Char := ns.value

/-- Dropping a while-prefix is idempotent. -/
theorem dropWhile_self_idem (p : Char → Bool) (l : List Char) :
    (l.dropWhile p).dropWhile p = l.dropWhile p := by
  induction l with
  | nil => rfl
  | cons h t ih =>
    by_cases hp : p h <;> simp [List.dropWhile, hp, ih]

/-- The head of a dropWhile result does not satisfy the predicate. -/
theorem head_dropWhile_false (p : Char → Bool) (l : List Char) (c : Char)
    (h : (l.dropWhile p).head? = some c) : p c = false := by
  induction l with
  | nil => simp [List.dropWhile] at h
  | cons x t ih =>
    by_cases hp : p x
    · simp [List.dropWhile, hp] at h
      exact ih h
    · simp [List.dropWhile, hp] at h
      subst h
      exact Bool.of_not_eq_true hp

/-- A list whose head fails the predicate is unchanged by dropWhile. -/
theorem dropWhile_of_head_false (p : Char → Bool) (l : List Char)
    (h : ∀ c, l.head? = some c → p c = false) : l.dropWhile p = l := by
  cases l with
  | nil => rfl
  | cons x t => simp [List.dropWhile, h x rfl]

/-- trimStart leaves a trimEnd result of a trimStart-fixed list unchanged. -/
theorem trimStart_trimEnd_fixed (l : List Char) (hl : trimStart l = l) :
    trimStart (trimEnd l) = trimEnd l := by
  have hsuf : ∃ t, l.reverse = t ++ l.reverse.dropWhile rustIsWhitespace := by
    obtain ⟨t, ht⟩ := List.dropWhile_suffix (l := l.reverse) (p := rustIsWhitespace)
    exact ⟨t, ht.symm⟩
  obtain ⟨t, ht⟩ := hsuf
  have hdecomp : l = trimEnd l ++ t.reverse := by
    have := congrArg List.reverse ht
    simpa [trimEnd] using this
  apply dropWhile_of_head_false
  intro c hc
  have hne : trimEnd l ≠ [] := by
    intro hnil
    rw [hnil] at hc
    simp at hc
  have hhead : l.head? = some c := by
    rw [hdecomp, List.head?_append_of_ne_nil _ hne]
    exact hc
  have hfix : l.head? = some c → rustIsWhitespace c = false := by
    intro hh
    apply head_dropWhile_false rustIsWhitespace l
    rw [show l.dropWhile rustIsWhitespace = l from hl]
    exact hh
  exact hfix hhead

/-- rustTrim is idempotent. -/
theorem rustTrim_idem (s : List Char) : rustTrim (rustTrim s) = rustTrim s := by
  have h1 : trimStart (trimStart s) = trimStart s := by
    simp [trimStart, dropWhile_self_idem]
  have h2 : trimStart (trimEnd (trimStart s)) = trimEnd (trimStart s) :=
    trimStart_trimEnd_fixed (trimStart s) h1
  have h3 : trimEnd (trimEnd (trimStart s)) = trimEnd (trimStart s) := by
    simp [trimEnd, dropWhile_self_idem]
  show trimEnd (trimStart (trimEnd (trimStart s))) = trimEnd (trimStart s)
  rw [h2, h3]

instance exceptDecEq {ε α : Type} [DecidableEq ε] [DecidableEq α] :
    DecidableEq (Except ε α)
  | .error a, .error b =>
    if h : a = b then .isTrue (by rw [h])
    else .isFalse (by intro hh; injection hh with h2; exact h h2)
  | .error _, .ok _ => .isFalse (by intro hh; exact Except.noConfusion hh)
  | .ok _, .error _ => .isFalse (by intro hh; exact Except.noConfusion hh)
  | .ok a, .ok b =>
    if h : a = b then .isTrue (by rw [h])
    else .isFalse (by intro hh; injection hh with h2; exact h h2)

/-- C4: when the input normalizes and trims to the empty string, the constructor
returns `Ok(None)` for `required = false` and an `UnprocessableContent` error
naming the label for `required = true`; the min/max bounds are never applied
(the result does not depend on them). -/
theorem normalized_string_empty_case :
    ∀ (nfkc : List Char → List Char) (input : List Char) (target : String)
      (min_len max_len : Option Nat),
      rustTrim (nfkc input) = [] →
      NormalizedString.new nfkc input true target min_len max_len
          = .error (.UnprocessableContent (some (target ++ "は必須のパラメータです。"))) ∧
      NormalizedString.new nfkc input false target min_len max_len = .ok none := by
  intro nfkc input target min_len max_len h
  constructor <;> simp [NormalizedString.new, h]

/-- Witness for C4: an input of a plain space followed by a full-width
ideographic space trims to empty under the identity normalization, so with
`required = true` the labelled error is produced, with `required = false` an
absent value, with bounds `min_len = 3` and `max_len = 4` left unapplied. -/
theorem normalized_string_empty_case_witness :
    NormalizedString.new (fun s => s) [' ', Char.ofNat 0x3000] true "name" (some 3) (some 4)
        = .error (.UnprocessableContent (some "nameは必須のパラメータです。")) ∧
    NormalizedString.new (fun s => s) [' ', Char.ofNat 0x3000] false "name" (some 3) (some 4)
        = .ok none :=
  normalized_string_empty_case (fun s => s) [' ', Char.ofNat 0x3000] "name"
    (some 3) (some 4) (by decide)

/-- A family emoji: four person code points joined by three zero-width joiners,
seven code points forming a single grapheme cluster. -/
def famEmoji : List Char :=
  [Char.ofNat 0x1F468, ZWJ, Char.ofNat 0x1F469, ZWJ, Char.ofNat 0x1F467, ZWJ,
    Char.ofNat 0x1F466]

/-- C5 (amended): on input that is non-empty after normalization and trimming,
length is measured in grapheme clusters (the seven-code-point ZWJ family emoji
counts as 1) and the bounds are inclusive: the constructor fails "too short"
exactly when `min_len` is set and the count is strictly below it; it fails "too
long" exactly when `max_len` is set, the count is strictly above it, and the min
bound is not also violated (the min check runs first); otherwise it succeeds
with the normalized string. -/
theorem normalized_string_length_bounds :
    (∀ (nfkc : List Char → List Char) (input : List Char) (required : Bool)
      (target : String) (min_len max_len : Option Nat),
      rustTrim (nfkc input) ≠ [] →
      (∀ m, min_len = some m → graphemeCount (rustTrim (nfkc input)) < m →
        NormalizedString.new nfkc input required target min_len max_len
          = .error (.UnprocessableContent
              (some (target ++ "は" ++ toString m ++ "文字以上で入力してください。")))) ∧
      (∀ mx, (∀ m, min_len = some m → m ≤ graphemeCount (rustTrim (nfkc input))) →
        max_len = some mx → mx < graphemeCount (rustTrim (nfkc input)) →
        NormalizedString.new nfkc input required target min_len max_len
          = .error (.UnprocessableContent
              (some (target ++ "は" ++ toString mx ++ "文字以内で入力してください。")))) ∧
      ((∀ m, min_len = some m → m ≤ graphemeCount (rustTrim (nfkc input))) →
        (∀ mx, max_len = some mx → graphemeCount (rustTrim (nfkc input)) ≤ mx) →
        NormalizedString.new nfkc input required target min_len max_len
          = .ok (some ⟨rustTrim (nfkc input)⟩))) ∧
    graphemeCount famEmoji = 1 ∧ famEmoji.length = 7 := by
  refine ⟨?_, by decide, by decide⟩
  intro nfkc input required target min_len max_len hne
  refine ⟨?_, ?_, ?_⟩
  · intro m hm hlt
    subst hm
    simp [NormalizedString.new, hne, check_min_len, hlt]
  · intro mx hminok hmx hlt
    subst hmx
    have hmin : check_min_len target (graphemeCount (rustTrim (nfkc input))) min_len
        = .ok () := by
      cases min_len with
      | none => rfl
      | some m =>
        simp [check_min_len, Nat.not_lt.mpr (hminok m rfl)]
    simp [NormalizedString.new, hne, hmin, check_max_len, hlt]
  · intro hminok hmaxok
    have hmin : check_min_len target (graphemeCount (rustTrim (nfkc input))) min_len
        = .ok () := by
      cases min_len with
      | none => rfl
      | some m =>
        simp [check_min_len, Nat.not_lt.mpr (hminok m rfl)]
    have hmax : check_max_len target (graphemeCount (rustTrim (nfkc input))) max_len
        = .ok () := by
      cases max_len with
      | none => rfl
      | some mx =>
        simp [check_max_len, Nat.not_lt.mpr (hmaxok mx rfl)]
    simp [NormalizedString.new, hne, hmin, hmax]

/-- Counterexample for C5 as stated: with crossed bounds `min_len = 7`,
`max_len = 3` and the 5-grapheme input "abcde", the max bound is set and the
count is strictly above it, yet the constructor does not produce the "too long"
error — it produces the "too short" error, because the min check runs first. -/
theorem normalized_string_length_bounds_counterexample :
    graphemeCount (rustTrim "abcde".data) = 5 ∧ (3 : Nat) < 5 ∧
    NormalizedString.new (fun s => s) "abcde".data true "name" (some 7) (some 3)
        = .error (.UnprocessableContent (some "nameは7文字以上で入力してください。")) ∧
    NormalizedString.new (fun s => s) "abcde".data true "name" (some 7) (some 3)
        ≠ .error (.UnprocessableContent (some "nameは3文字以内で入力してください。")) := by
  refine ⟨by decide, by decide, by decide, by decide⟩

/-- Witness for C5: the boundary behaviour on concrete inputs — a 5-grapheme
input with bounds [5,5] succeeds, a 4-grapheme input fails "too short", a
6-grapheme input fails "too long", and the 7-code-point family emoji passes
bounds [1,1] because it counts as a single grapheme. -/
theorem normalized_string_length_bounds_witness :
    NormalizedString.new (fun s => s) "abcde".data true "x" (some 5) (some 5)
        = .ok (some ⟨"abcde".data⟩) ∧
    NormalizedString.new (fun s => s) "abcd".data true "x" (some 5) (some 5)
        = .error (.UnprocessableContent (some "xは5文字以上で入力してください。")) ∧
    NormalizedString.new (fun s => s) "abcdef".data true "x" (some 5) (some 5)
        = .error (.UnprocessableContent (some "xは5文字以内で入力してください。")) ∧
    NormalizedString.new (fun s => s) famEmoji true "emoji" (some 1) (some 1)
        = .ok (some ⟨famEmoji⟩) ∧
    famEmoji.length = 7 := by
  refine ⟨?_, ?_, ?_, ?_, normalized_string_length_bounds.2.2⟩
  · exact (normalized_string_length_bounds.1 (fun s => s) "abcde".data true "x"
      (some 5) (some 5) (by decide)).2.2
      (by intro m hm; injection hm with h2; subst h2; decide)
      (by intro mx hmx; injection hmx with h2; subst h2; decide)
  · exact (normalized_string_length_bounds.1 (fun s => s) "abcd".data true "x"
      (some 5) (some 5) (by decide)).1 5 rfl (by decide)
  · exact (normalized_string_length_bounds.1 (fun s => s) "abcdef".data true "x"
      (some 5) (some 5) (by decide)).2.1 5
      (by intro m hm; injection hm with h2; subst h2; decide) rfl (by decide)
  · exact (normalized_string_length_bounds.1 (fun s => s) famEmoji true "emoji"
      (some 1) (some 1) (by decide)).2.2
      (by intro m hm; injection hm with h2; subst h2; decide)
      (by intro mx hmx; injection hmx with h2; subst h2; decide)

/-- Successful construction characterized: `new` returns `Ok(Some v)` exactly
when the normalized, trimmed input is non-empty, `v` wraps it, and both length
guards pass. -/
theorem new_ok_some_iff (nfkc : List Char → List Char) (input : List Char)
    (required : Bool) (target : String) (min_len max_len : Option Nat)
    (v : NormalizedString) :
    NormalizedString.new nfkc input required target min_len max_len = .ok (some v) ↔
      (rustTrim (nfkc input) ≠ [] ∧ v.value = rustTrim (nfkc input) ∧
        check_min_len target (graphemeCount (rustTrim (nfkc input))) min_len = .ok () ∧
        check_max_len target (graphemeCount (rustTrim (nfkc input))) max_len = .ok ()) := by
  constructor
  · intro h
    by_cases hemp : rustTrim (nfkc input) = []
    · exfalso
      rw [NormalizedString.new, if_pos hemp] at h
      cases required <;> simp at h
    · rw [NormalizedString.new, if_neg hemp] at h
      rcases hmin : check_min_len target (graphemeCount (rustTrim (nfkc input))) min_len
        with e | u
      · rw [hmin] at h
        simp at h
      · cases u
        rw [hmin] at h
        rcases hmax : check_max_len target (graphemeCount (rustTrim (nfkc input))) max_len
          with e | u
        · rw [hmax] at h
          simp at h
        · cases u
          rw [hmax] at h
          simp at h
          exact ⟨hemp, by rw [← h], rfl, rfl⟩
  · rintro ⟨hne, hv, hmin, hmax⟩
    rw [NormalizedString.new, if_neg hne, hmin, hmax]
    cases v
    simp at hv
    rw [hv]

/-- C6: normalization is idempotent at the constructor level — whenever the
external NFKC pass leaves its own trimmed output unchanged (the defining
property of a normalization), re-running `new` on a successfully constructed
value's string succeeds with the same wrapped string, under the same flag and
bounds. -/
theorem normalized_string_idempotent :
    ∀ nfkc : List Char → List Char,
      (∀ t, nfkc (rustTrim (nfkc t)) = rustTrim (nfkc t)) →
      ∀ (input : List Char) (required : Bool) (target : String)
        (min_len max_len : Option Nat) (v : NormalizedString),
        NormalizedString.new nfkc input required target min_len max_len = .ok (some v) →
        NormalizedString.new nfkc v.as_str required target min_len max_len
          = .ok (some v) := by
  intro nfkc hfix input required target min_len max_len v hok
  rw [new_ok_some_iff] at hok
  obtain ⟨hne, hv, hmin, hmax⟩ := hok
  have hval : rustTrim (nfkc v.value) = v.value := by
    rw [hv, hfix input, rustTrim_idem]
  rw [new_ok_some_iff]
  have hstr : v.as_str = v.value := rfl
  rw [hstr, hval]
  refine ⟨?_, rfl, ?_, ?_⟩
  · rw [hv] at hval ⊢
    exact hne
  · rw [hv] at hval ⊢
    exact hmin
  · rw [hv] at hval ⊢
    exact hmax

/-- Witness for C6: under the identity normalization (which trivially fixes its
own trimmed output), constructing from " hi " succeeds with "hi", and
reconstructing from that output succeeds with the same value. -/
theorem normalized_string_idempotent_witness :
    NormalizedString.new (fun s => s) "hi".data true "x" (some 1) (some 4)
        = .ok (some ⟨"hi".data⟩) :=
  normalized_string_idempotent (fun s => s) (fun t => rfl) " hi ".data true "x"
    (some 1) (some 4) ⟨"hi".data⟩ (by decide)

/-- A calendar date as chrono's `NaiveDate` exposes it: a year (`i32`, modelled
as `Int`) with month and day numbers (`u32`, modelled as `Nat`). -/
structure Date where
  year : Int
  month : Nat
  day : Nat
  deriving DecidableEq, Repr

/-- Modelled from the spec: proleptic Gregorian leap years, as chrono computes
them — divisible by 4 and, when divisible by 100, also by 400. -/
def isLeapYear (y : Int) : Prop :=
  y % 4 = 0 ∧ (y % 100 ≠ 0 ∨ y % 400 = 0)

instance (y : Int) : Decidable (isLeapYear y) := by
  unfold isLeapYear
  infer_instance

/-- Modelled from the spec: number of days of a month in the proleptic Gregorian
calendar; 0 for an out-of-range month number. -/
def days_in_month (y : Int) (m : Nat) : Nat :=
  match m with
  | 1 => 31
  | 2 => if isLeapYear y then 29 else 28
  | 3 => 31
  | 4 => 30
  | 5 => 31
  | 6 => 30
  | 7 => 31
  | 8 => 31
  | 9 => 30
  | 10 => 31
  | 11 => 30
  | 12 => 31
  | _ => 0

/-- Modelled from the spec: chrono's `NaiveDate::from_ymd_opt` — `Some` of the
date when `(y, m, d)` is a valid proleptic Gregorian calendar date, else `None`. -/
def from_ymd_opt (y : Int) (m d : Nat) : Option Date :=
  if 1 ≤ m ∧ m ≤ 12 ∧ 1 ≤ d ∧ d ≤ days_in_month y m then some ⟨y, m, d⟩ else none

/-- Validity of a `Date` value: its own components form a calendar date. -/
def validDate (d : Date) : Prop :=
  1 ≤ d.month ∧ d.month ≤ 12 ∧ 1 ≤ d.day ∧ d.day ≤ days_in_month d.year d.month

instance (d : Date) : Decidable (validDate d) := by
  unfold validDate
  infer_instance

/-- Modelled from the spec: chrono's `Ord` on `NaiveDate` — for valid dates,
lexicographic on (year, month, day). -/
def dateLt (a b : Date) : Prop :=
  a.year < b.year ∨
    (a.year = b.year ∧ (a.month < b.month ∨ (a.month = b.month ∧ a.day < b.day)))

instance (a b : Date) : Decidable (dateLt a b) := by
  unfold dateLt
  infer_instance

/-- Numeric value of an ASCII digit character. -/
def digitVal (c : Char) : Nat := c.toNat - 48

/-- Modelled from the spec: chrono's `NaiveDate::parse_from_str` with format
`"%Y%m%d"` on the already length-checked input — strictly four digits of year,
two of month, two of day, forming a valid calendar date. -/
def parse_yyyymmdd (s : List Char) : Option Date :=
  match s with
  | [y1, y2, y3, y4, m1, m2, d1, d2] =>
    if y1.isDigit && y2.isDigit && y3.isDigit && y4.isDigit &&
        m1.isDigit && m2.isDigit && d1.isDigit && d2.isDigit then
      from_ymd_opt
        ((digitVal y1 * 1000 + digitVal y2 * 100 + digitVal y3 * 10 + digitVal y4 : Nat) : Int)
        (digitVal m1 * 10 + digitVal m2)
        (digitVal d1 * 10 + digitVal d2)
    else
      none
  | _ => none

/-- The `BirthDate` value object from `birth_date.rs`, wrapping a calendar date. -/
structure BirthDate where
  date : Date
  deriving DecidableEq, Repr

/-- Error-message label constant from `birth_date.rs`. -/
def BirthDate.TARGET : String := "誕生日(birth_date)"

/-- Required input length constant from `birth_date.rs`. -/
def BirthDate.LEN : Nat := 8

/-- The `BirthDate::new` smart constructor: normalize with `min_len = max_len = 8`,
propagate `None`/errors, parse strictly as `YYYYMMDD`, and reject future dates.
`today` models the environmental `Local::now().date_naive()`. -/
def BirthDate.new (nfkc : List Char → List Char) (today : Date) (input : List Char)
    (required : Bool) : Except AppError (Option BirthDate) :=
  match NormalizedString.new nfkc input required BirthDate.TARGET (some BirthDate.LEN)
      (some BirthDate.LEN) with
  | .error e => .error e
  | .ok none => .ok none
  | .ok (some ns) =>
    match parse_yyyymmdd ns.value with
    | none =>
      .error (.UnprocessableContent
        (some (BirthDate.TARGET ++ "は`YYYYmmdd`形式で入力してください。")))
    | some birth_date =>
      if dateLt today birth_date then
        .error (.UnprocessableContent (some (BirthDate.TARGET ++ "は未来日を指定できません。")))
      else
        .ok (some ⟨birth_date⟩)

/-- The `BirthDate::from_naive_date` unchecked constructor. -/
def BirthDate.from_naive_date (bd : Date) : BirthDate := ⟨bd⟩

/-- The `BirthDate::as_naive_date` accessor. -/
def BirthDate.as_naive_date (b : BirthDate) : Date := b.date

/-- The tail of `calculate_to_age` after the age difference is computed: the
negative-age guard and the `u32` cast. -/
def age_check (age : Int) : Except AppError Nat :=
  if age < 0 then
    .error (.UnprocessableContent (some (BirthDate.TARGET ++ "の値が不正です。")))
  else
    .ok age.toNat

/-- The shared continuation of `calculate_to_age` once this year's anniversary
is determined: decrement if the birthday has not been reached, then check. -/
def age_with_birthday_this_year (age : Int) (today birthday_this_year : Date) :
    Except AppError Nat :=
  age_check (if dateLt today birthday_this_year then age - 1 else age)

/-- The `BirthDate::calculate_to_age` method from `birth_date.rs`: age in whole
years as of `today`, substituting Feb 28 for a Feb 29 anniversary in a non-leap
year, with defensive errors for an impossible anniversary and a negative age.
The source's `unwrap()` of `from_ymd_opt(today.year, 2, 28)` (which never fails)
is modelled with `getD` of the same date. -/
def BirthDate.calculate_to_age (b : BirthDate) (today : Date) : Except AppError Nat :=
  match from_ymd_opt today.year b.date.month b.date.day with
  | some birthday_this_year =>
    age_with_birthday_this_year (today.year - b.date.year) today birthday_this_year
  | none =>
    if b.date.month = 2 ∧ b.date.day = 29 then
      age_with_birthday_this_year (today.year - b.date.year) today
        ((from_ymd_opt today.year 2 28).getD ⟨today.year, 2, 28⟩)
    else
      .error (.UnprocessableContent (some (BirthDate.TARGET ++ "の値が不正です。")))

/-- from_ymd_opt succeeds on Feb 28 of any year. -/
theorem from_ymd_feb28 (y : Int) : from_ymd_opt y 2 28 = some ⟨y, 2, 28⟩ := by
  by_cases h : isLeapYear y <;> simp [from_ymd_opt, days_in_month, h]

/-- Inversion for a successful from_ymd_opt. -/
theorem from_ymd_opt_some (y : Int) (m d : Nat) (x : Date)
    (h : from_ymd_opt y m d = some x) :
    x = ⟨y, m, d⟩ ∧ 1 ≤ m ∧ m ≤ 12 ∧ 1 ≤ d ∧ d ≤ days_in_month y m := by
  by_cases hc : 1 ≤ m ∧ m ≤ 12 ∧ 1 ≤ d ∧ d ≤ days_in_month y m
  · unfold from_ymd_opt at h
    rw [if_pos hc] at h
    injection h with h2
    exact ⟨h2.symm, hc⟩
  · unfold from_ymd_opt at h
    rw [if_neg hc] at h
    cases h

/-- For a valid calendar date, the only way its (month, day) can fail to exist
in another year is a Feb 29 birth date evaluated in a non-leap year. -/
theorem valid_day_missing_in_year (bd : Date) (y : Int)
    (hv : validDate bd) (h : from_ymd_opt y bd.month bd.day = none) :
    bd.month = 2 ∧ bd.day = 29 ∧ ¬ isLeapYear y ∧ isLeapYear bd.year := by
  obtain ⟨y0, m0, d0⟩ := bd
  obtain ⟨h1, h2, h3, h4⟩ := hv
  simp only at h1 h2 h3 h4 h ⊢
  have hday : days_in_month y m0 < d0 := by
    by_contra hle
    rw [from_ymd_opt, if_pos ⟨h1, h2, h3, Nat.le_of_not_lt hle⟩] at h
    cases h
  interval_cases m0 <;>
    first
    | (exfalso
       simp only [days_in_month] at h4 hday
       omega)
    | (by_cases hly : isLeapYear y <;> by_cases hlb : isLeapYear y0 <;>
        simp only [days_in_month, hly, hlb, if_true, if_false, if_pos, if_neg,
          not_false_iff] at h4 hday <;>
        simp_all <;> omega)

/-- C7: `BirthDate::new` delegates to the text normalizer with
`min_len = max_len = 8` and propagates its errors and `None` as-is; a normalized
string that does not parse strictly as a valid `YYYYMMDD` calendar date fails
with the `UnprocessableContent` format error; a parsed date strictly later than
today fails with the `UnprocessableContent` future-date error; a date equal to
today or earlier succeeds and wraps the parsed date. -/
theorem birth_date_new_pipeline :
    ∀ (nfkc : List Char → List Char) (today : Date) (input : List Char) (required : Bool),
      (∀ e, NormalizedString.new nfkc input required BirthDate.TARGET (some 8) (some 8)
          = .error e →
        BirthDate.new nfkc today input required = .error e) ∧
      (NormalizedString.new nfkc input required BirthDate.TARGET (some 8) (some 8)
          = .ok none →
        BirthDate.new nfkc today input required = .ok none) ∧
      (∀ ns, NormalizedString.new nfkc input required BirthDate.TARGET (some 8) (some 8)
          = .ok (some ns) →
        parse_yyyymmdd ns.value = none →
        BirthDate.new nfkc today input required
          = .error (.UnprocessableContent
              (some (BirthDate.TARGET ++ "は`YYYYmmdd`形式で入力してください。")))) ∧
      (∀ ns d, NormalizedString.new nfkc input required BirthDate.TARGET (some 8) (some 8)
          = .ok (some ns) →
        parse_yyyymmdd ns.value = some d →
        dateLt today d →
        BirthDate.new nfkc today input required
          = .error (.UnprocessableContent
              (some (BirthDate.TARGET ++ "は未来日を指定できません。")))) ∧
      (∀ ns d, NormalizedString.new nfkc input required BirthDate.TARGET (some 8) (some 8)
          = .ok (some ns) →
        parse_yyyymmdd ns.value = some d →
        ¬ dateLt today d →
        BirthDate.new nfkc today input required = .ok (some ⟨d⟩)) := by
  intro nfkc today input required
  refine ⟨?_, ?_, ?_, ?_, ?_⟩
  · intro e h
    simp [BirthDate.new, BirthDate.LEN, h]
  · intro h
    simp [BirthDate.new, BirthDate.LEN, h]
  · intro ns h hp
    simp [BirthDate.new, BirthDate.LEN, h, hp]
  · intro ns d h hp hlt
    simp [BirthDate.new, BirthDate.LEN, h, hp, hlt]
  · intro ns d h hp hlt
    simp [BirthDate.new, BirthDate.LEN, h, hp, hlt]

/-- Witness for C7: with identity normalization and today = 2026-10-12, the
7-digit input "2023131" fails with an `UnprocessableContent` (length) error;
"20231301" (month 13) fails with the format error; "20991231" fails with the
future-date error; "20231231" and today's own date "20261012" succeed. -/
theorem birth_date_new_pipeline_witness :
    BirthDate.new (fun s => s) ⟨2026, 10, 12⟩ "2023131".data true
        = .error (.UnprocessableContent
            (some (BirthDate.TARGET ++ "は8文字以上で入力してください。"))) ∧
    BirthDate.new (fun s => s) ⟨2026, 10, 12⟩ "20231301".data true
        = .error (.UnprocessableContent
            (some (BirthDate.TARGET ++ "は`YYYYmmdd`形式で入力してください。"))) ∧
    BirthDate.new (fun s => s) ⟨2026, 10, 12⟩ "20991231".data true
        = .error (.UnprocessableContent
            (some (BirthDate.TARGET ++ "は未来日を指定できません。"))) ∧
    BirthDate.new (fun s => s) ⟨2026, 10, 12⟩ "20231231".data true
        = .ok (some ⟨⟨2023, 12, 31⟩⟩) ∧
    BirthDate.new (fun s => s) ⟨2026, 10, 12⟩ "20261012".data true
        = .ok (some ⟨⟨2026, 10, 12⟩⟩) := by
  refine ⟨?_, ?_, ?_, ?_, ?_⟩
  · exact (birth_date_new_pipeline (fun s => s) ⟨2026, 10, 12⟩ "2023131".data true).1
      (.UnprocessableContent (some (BirthDate.TARGET ++ "は8文字以上で入力してください。")))
      (by decide)
  · exact (birth_date_new_pipeline (fun s => s) ⟨2026, 10, 12⟩ "20231301".data true).2.2.1
      ⟨"20231301".data⟩ (by decide) (by decide)
  · exact (birth_date_new_pipeline (fun s => s) ⟨2026, 10, 12⟩ "20991231".data true).2.2.2.1
      ⟨"20991231".data⟩ ⟨2099, 12, 31⟩ (by decide) (by decide) (by decide)
  · exact (birth_date_new_pipeline (fun s => s) ⟨2026, 10, 12⟩ "20231231".data true).2.2.2.2
      ⟨"20231231".data⟩ ⟨2023, 12, 31⟩ (by decide) (by decide) (by decide)
  · exact (birth_date_new_pipeline (fun s => s) ⟨2026, 10, 12⟩ "20261012".data true).2.2.2.2
      ⟨"20261012".data⟩ ⟨2026, 10, 12⟩ (by decide) (by decide) (by decide)

/-- C8: the anniversary used by the age computation is
(today.year, birth.month, birth.day); among valid birth dates it can fail to
exist only for a Feb 29 birth date in a non-leap year, and Feb 28 of today's
year is then substituted; consequently, for a Feb 29 birth date the age on
Mar 1 of a non-leap year equals the age on Feb 28 of that same year. -/
theorem feb29_anniversary_substitution :
    (∀ (bd today : Date), validDate bd →
      from_ymd_opt today.year bd.month bd.day = none →
      bd.month = 2 ∧ bd.day = 29 ∧
      BirthDate.calculate_to_age ⟨bd⟩ today
        = age_with_birthday_this_year (today.year - bd.year) today
            ⟨today.year, 2, 28⟩) ∧
    (∀ byr ty : Int, validDate ⟨byr, 2, 29⟩ → ¬ isLeapYear ty →
      BirthDate.calculate_to_age ⟨⟨byr, 2, 29⟩⟩ ⟨ty, 3, 1⟩
        = BirthDate.calculate_to_age ⟨⟨byr, 2, 29⟩⟩ ⟨ty, 2, 28⟩) := by
  constructor
  · intro bd today hv h
    obtain ⟨hm2, hd29, _, _⟩ := valid_day_missing_in_year bd today.year hv h
    refine ⟨hm2, hd29, ?_⟩
    rw [hm2, hd29] at h
    simp [BirthDate.calculate_to_age, hm2, hd29, h, from_ymd_feb28]
  · intro byr ty hv hnl
    have hnone : from_ymd_opt ty 2 29 = none := by
      have : days_in_month ty 2 = 28 := by simp [days_in_month, hnl]
      rw [from_ymd_opt, if_neg]
      rw [this]
      omega
    have hlt1 : ¬ dateLt ⟨ty, 3, 1⟩ ⟨ty, 2, 28⟩ := by simp [dateLt]
    have hlt2 : ¬ dateLt ⟨ty, 2, 28⟩ ⟨ty, 2, 28⟩ := by simp [dateLt]
    simp [BirthDate.calculate_to_age, hnone, from_ymd_feb28,
      age_with_birthday_this_year, hlt1, hlt2]

/-- Witness for C8: a Feb 29, 2000 birth date evaluated in the non-leap year
2023 — the anniversary 2023-02-29 does not exist, Feb 28 is substituted, and
the age on 2023-03-01 equals the age on 2023-02-28 (both 23). -/
theorem feb29_anniversary_substitution_witness :
    (BirthDate.calculate_to_age ⟨⟨2000, 2, 29⟩⟩ ⟨2023, 7, 1⟩
        = age_with_birthday_this_year (2023 - 2000) ⟨2023, 7, 1⟩ ⟨2023, 2, 28⟩) ∧
    BirthDate.calculate_to_age ⟨⟨2000, 2, 29⟩⟩ ⟨2023, 3, 1⟩
        = BirthDate.calculate_to_age ⟨⟨2000, 2, 29⟩⟩ ⟨2023, 2, 28⟩ ∧
    BirthDate.calculate_to_age ⟨⟨2000, 2, 29⟩⟩ ⟨2023, 3, 1⟩ = .ok 23 := by
  refine ⟨?_, ?_, by decide⟩
  · exact (feb29_anniversary_substitution.1 ⟨2000, 2, 29⟩ ⟨2023, 7, 1⟩
      (by decide) (by decide)).2.2
  · exact feb29_anniversary_substitution.2 2000 2023 (by decide) (by decide)

/-- C9: for a `BirthDate` wrapping a valid calendar date, `calculate_to_age`
errors exactly on future evaluation: when the birth date is not later than
today it returns `Ok` with a (non-negative) age and neither defensive branch is
taken; when it is strictly later than today — reachable only via the unchecked
`from_naive_date` constructor — it returns the `UnprocessableContent` error. -/
theorem calculate_to_age_future_guard :
    ∀ (bd today : Date), validDate bd →
      (¬ dateLt today bd →
        ∃ n, BirthDate.calculate_to_age (BirthDate.from_naive_date bd) today = .ok n) ∧
      (dateLt today bd →
        BirthDate.calculate_to_age (BirthDate.from_naive_date bd) today
          = .error (.UnprocessableContent (some (BirthDate.TARGET ++ "の値が不正です。")))) := by
  intro bd today hv
  rcases hopt : from_ymd_opt today.year bd.month bd.day with _ | x
  · obtain ⟨hm2, hd29, hnl, hlb⟩ := valid_day_missing_in_year bd today.year hv hopt
    have hne : bd.year ≠ today.year := by
      intro he
      rw [he] at hlb
      exact hnl hlb
    have hcalc : BirthDate.calculate_to_age (BirthDate.from_naive_date bd) today
        = age_check (if dateLt today ⟨today.year, 2, 28⟩ then
            today.year - bd.year - 1 else today.year - bd.year) := by
      rw [hm2, hd29] at hopt
      simp [BirthDate.calculate_to_age, BirthDate.from_naive_date, hm2, hd29, hopt,
        from_ymd_feb28, age_with_birthday_this_year]
    constructor
    · intro hnf
      have hyy : bd.year < today.year := by
        simp only [dateLt] at hnf
        omega
      rw [hcalc]
      by_cases hc : dateLt today (⟨today.year, 2, 28⟩ : Date)
      · rw [if_pos hc]
        exact ⟨_, by rw [age_check, if_neg (by omega)]⟩
      · rw [if_neg hc]
        exact ⟨_, by rw [age_check, if_neg (by omega)]⟩
    · intro hf
      have hyy : today.year < bd.year := by
        simp only [dateLt] at hf
        omega
      rw [hcalc]
      by_cases hc : dateLt today (⟨today.year, 2, 28⟩ : Date)
      · rw [if_pos hc, age_check, if_pos (by omega)]
      · rw [if_neg hc, age_check, if_pos (by omega)]
  · obtain ⟨hx, hm1, hm12, hd1, hdm⟩ := from_ymd_opt_some _ _ _ _ hopt
    subst hx
    have hcalc : BirthDate.calculate_to_age (BirthDate.from_naive_date bd) today
        = age_check (if dateLt today ⟨today.year, bd.month, bd.day⟩ then
            today.year - bd.year - 1 else today.year - bd.year) := by
      simp [BirthDate.calculate_to_age, BirthDate.from_naive_date, hopt,
        age_with_birthday_this_year]
    constructor
    · intro hnf
      rw [hcalc]
      by_cases hyy : bd.year = today.year
      · have hxbd : (⟨today.year, bd.month, bd.day⟩ : Date) = bd := by
          obtain ⟨y0, m0, d0⟩ := bd
          simp only at hyy
          rw [hyy]
        rw [hxbd, if_neg hnf]
        exact ⟨_, by rw [age_check, if_neg (by omega)]⟩
      · have hyy2 : bd.year < today.year := by
          simp only [dateLt] at hnf
          omega
        by_cases hc : dateLt today (⟨today.year, bd.month, bd.day⟩ : Date)
        · rw [if_pos hc]
          exact ⟨_, by rw [age_check, if_neg (by omega)]⟩
        · rw [if_neg hc]
          exact ⟨_, by rw [age_check, if_neg (by omega)]⟩
    · intro hf
      rw [hcalc]
      by_cases hyy : today.year < bd.year
      · by_cases hc : dateLt today (⟨today.year, bd.month, bd.day⟩ : Date)
        · rw [if_pos hc, age_check, if_pos (by omega)]
        · rw [if_neg hc, age_check, if_pos (by omega)]
      · have hyy2 : today.year = bd.year := by
          simp only [dateLt] at hf
          omega
        have hxbd : (⟨today.year, bd.month, bd.day⟩ : Date) = bd := by
          obtain ⟨y0, m0, d0⟩ := bd
          simp only at hyy2
          rw [hyy2]
        rw [hxbd, if_pos hf, age_check, if_pos (by omega)]

/-- Witness for C9: a future birth date 2030-01-01 reconstructed through the
unchecked constructor errors on 2026-10-12, while the past date 2000-02-29
yields an age. -/
theorem calculate_to_age_future_guard_witness :
    BirthDate.calculate_to_age (BirthDate.from_naive_date ⟨2030, 1, 1⟩) ⟨2026, 10, 12⟩
        = .error (.UnprocessableContent (some (BirthDate.TARGET ++ "の値が不正です。"))) ∧
    (∃ n, BirthDate.calculate_to_age (BirthDate.from_naive_date ⟨2000, 2, 29⟩)
        ⟨2026, 10, 12⟩ = .ok n) := by
  constructor
  · exact (calculate_to_age_future_guard ⟨2030, 1, 1⟩ ⟨2026, 10, 12⟩ (by decide)).2
      (by decide)
  · exact (calculate_to_age_future_guard ⟨2000, 2, 29⟩ ⟨2026, 10, 12⟩ (by decide)).1
      (by decide)

end RestApi
